import Mathlib

/-!
Verification of the caching + event-scoring core of the service.

The development shallowly embeds the Python sources:

* `app/services/cache/manager.py` — `RedisCacheManager` (key builder,
  read-through `cache_handler`, `get_cache` / `set_cache`, the three
  invalidation operations);
* `app/services/redis/manager.py` — `RedisManager` (score ledger: `create_key`,
  `update_scores`);
* `app/services/celery/tasks/events.py` — `process_event`;
* `app/services/celery/tasks/utils.py` — `check_user_achievement`;
* `app/infrastructure/repositories/abc.py` and
  `app/infrastructure/models/postgresql/achievements.py` — repository `create`
  under the `uix_achievements_user_name` uniqueness constraint;
* `app/core/database/postgresql/decorators.py` — `session_decorator`
  (commit on success, rollback and re-raise on error).

Machine integers are modelled as `Int`/`Nat` (no overflow is relevant here),
fallible code returns `Option`/`Except`, and Redis is modelled as an
association list of entries in one logical database (both managers are
constructed on `settings.REDIS.CACHE_API_DB`, so both live in the same
logical database).
-/

/-- Decimal digit character, as produced by Python `str` on an integer. -/
def digitChar (n : Nat) : Char :=
  if n = 0 then '0' else if n = 1 then '1' else if n = 2 then '2'
  else if n = 3 then '3' else if n = 4 then '4' else if n = 5 then '5'
  else if n = 6 then '6' else if n = 7 then '7' else if n = 8 then '8'
  else '9'

/-- Fuel-indexed decimal rendering of a natural number (most significant digit
first); the fuel only bounds recursion depth and `fuel = n + 1` is always
sufficient. -/
def natCharsAux : Nat → Nat → List Char
  | 0, _ => []
  | fuel + 1, n =>
    if n < 10 then [digitChar n]
    else natCharsAux fuel (n / 10) ++ [digitChar (n % 10)]

/-- Decimal rendering of a natural number. -/
def natChars (n : Nat) : List Char := natCharsAux (n + 1) n

/-- Python `str` applied to an `int`, restricted to the characters it can
produce (digits and a leading minus sign). -/
def intRepr : Int → String
  | .ofNat n => ⟨natChars n⟩
  | .negSucc n => ⟨'-' :: natChars (n + 1)⟩

/-- A cache-key user identifier: the Python parameter `user_id: int | str`. -/
inductive UserId where
  | i (n : Int)
  | s (t : String)
deriving DecidableEq

/-- The string interpolated for a user id by an f-string (`f"user:{user_id}:"`). -/
def UserId.interp : UserId → String
  | .i n => intRepr n
  | .s t => t

/-- Python truthiness of a user id: `0` and `""` are falsy. -/
def UserId.truthy : UserId → Bool
  | .i n => n != 0
  | .s t => t != ""

/-- Python truthiness of the optional `user_id` argument (`if user_id:`). -/
def uidTruthy : Option UserId → Bool
  | none => false
  | some u => u.truthy

/-- Python truthiness of the optional `additional_key` argument
(`if additional_key:`). -/
def strTruthy : Option String → Bool
  | none => false
  | some a => a != ""

/-- `RedisCacheManager._create_cache_prefix_pattern`: `f":{prefix}://"`. -/
def createCachePfxPattern (p : String) : String := ":" ++ p ++ "://"

/-- `RedisCacheManager._create_user_pattern`: `f"user:{user_id}:"`. -/
def createUserPattern (u : UserId) : String := "user:" ++ u.interp ++ ":"

/-- `RedisCacheManager._generate_handler_key`: starts from the prefix wrapper
and the function name, then appends the user pattern if `user_id` is truthy
and the additional key if it is truthy. -/
def generateHandlerKey (p funcName : String) (additionalKey : Option String)
    (userId : Option UserId) : String :=
  let key := createCachePfxPattern p ++ funcName ++ ":"
  let key := match userId with
    | some u => if u.truthy then key ++ createUserPattern u else key
    | none => key
  match additionalKey with
  | some a => if a != "" then key ++ a else key
  | none => key

/-- Modelled from the spec (§4.1), for comparison with `generateHandlerKey`:
the key format exactly as the specification states it — the concatenation
`:<prefix>://` ++ `<operation_name>:` ++ (`user:<user_id>:` when `user_id` is
present, else nothing) ++ (`<qualifier>` when present, else nothing). -/
def specKeyFormat (p funcName : String) (additionalKey : Option String)
    (userId : Option UserId) : String :=
  ":" ++ p ++ "://" ++ funcName ++ ":"
    ++ (match userId with
        | some u => "user:" ++ u.interp ++ ":"
        | none => "")
    ++ (match additionalKey with
        | some a => a
        | none => "")

/-- A value held in the key-value store, classified by how `json.loads` and
Python truthiness treat the raw payload string: a JSON object literal (a field
map), valid JSON that is not an object (truthy or falsy), the empty payload
string (falsy before parsing), or a payload that is not valid JSON. -/
inductive StoredVal where
  | obj (fields : List (String × String))
  | nonObj (truthy : Bool)
  | emptyStr
  | invalid
deriving DecidableEq

/-- One stored key-value pair with its optional TTL (`None` = no expiry). -/
structure CacheEntry where
  key : String
  val : StoredVal
  ttl : Option Int
deriving DecidableEq

/-- The state of the single shared logical Redis database: both
`redis_cache_manager` and the score-ledger `redis_manager` are constructed on
a connection pool for `settings.REDIS.CACHE_API_DB`. -/
abbrev Store : Type := List CacheEntry

/-- Redis `GET`: the first entry with the requested key, if any. -/
def storeGet (st : Store) (k : String) : Option StoredVal :=
  (st.find? (fun e => e.key == k)).map (·.val)

/-- Redis `SET` with optional expiry: overwrites any entry with the same key. -/
def storeSet (st : Store) (k : String) (v : StoredVal) (ttl : Option Int) :
    Store :=
  ⟨k, v, ttl⟩ :: st.filter (fun e => !(e.key == k))

/-- Redis glob matching (fuel-indexed so that the recursion is structural;
`fuel = p.length + s.length + 1` always suffices): `*` matches any substring,
`?` any single character, every other pattern character only itself.
Character classes and backslash escapes are not used by the patterns this
service builds and are not modelled. -/
def globMatchAux : Nat → List Char → List Char → Bool
  | 0, _, _ => false
  | _ + 1, [], s => s.isEmpty
  | fuel + 1, p :: ps, s =>
    if p = '*' then
      match s with
      | [] => globMatchAux fuel ps []
      | c :: ss => globMatchAux fuel ps (c :: ss) || globMatchAux fuel (p :: ps) ss
    else
      match s with
      | [] => false
      | c :: ss =>
        if p = '?' then globMatchAux fuel ps ss
        else p == c && globMatchAux fuel ps ss

/-- Redis glob matching of a pattern against a string. -/
def globMatch (pat s : String) : Bool :=
  globMatchAux (pat.data.length + s.data.length + 1) pat.data s.data

/-- Redis `KEYS pattern`: every stored key matching the glob pattern. -/
def scanKeys (pat : String) (st : Store) : List String :=
  (st.map (·.key)).filter (fun k => globMatch pat k)

/-- `RedisCacheManager.invalidate_all`: `flushdb` on the connection's logical
database — the database shared with the score ledger. -/
def invalidateAll (_st : Store) : Store := []

/-- `RedisCacheManager.invalidate_by_prefix`: scans `f"*{cache_prefix}*"`
(that is, `*:<p>://*`) and, when keys were found, deletes them with
`delete(*keys)`. -/
def invalidateByPfx (p : String) (st : Store) : Store :=
  let pat := "*" ++ createCachePfxPattern p ++ "*"
  let ks := scanKeys pat st
  if ks.isEmpty then st
  else st.filter (fun e => !(ks.contains e.key))

/-- `RedisCacheManager.invalidate_by_user`: builds
`pattern = f"*:{user_cache_pattern}:*"` — note the pattern embeds
`user:<id>:` and then appends another `:`, giving `*:user:<id>::*` — and, when
keys were found, calls `delete(keys)` with the whole Python list as a single
argument; the client rejects a list argument (`DataError`), the surrounding
`except` swallows it, and no key is removed. Either way the store is
unchanged. -/
def invalidateByUser (u : UserId) (st : Store) : Store :=
  let userCachePat := createUserPattern u
  let pat := "*:" ++ userCachePat ++ ":*"
  let ks := scanKeys pat st
  if ks.isEmpty then st
  else st

/-- `RedisManager.create_key`: `f"user:{user_id}:{add_key}"` (ledger keys). -/
def createKey (userId : Int) (addKey : String) : String :=
  "user:" ++ intRepr userId ++ ":" ++ addKey

/-- The score-ledger key for a user, as used by `update_scores`/`get_scores`. -/
def scoresKey (userId : Int) : String := createKey userId "scores"

/-- A Pydantic model class bounded by `ABCSchema`, abstracted to what the
cache layer uses: a value type, validation of a field map
(`dto_model(**cache_data)`, `none` = a `ValidationError` is raised) and
canonical serialization (`model_dump_json`, rendered as its field map). The
`ABCSchema` base class itself is imported but absent from the sources; per the
spec it is only "a type that supports canonical serialize/deserialize". -/
structure DtoModel where
  Val : Type
  decode : List (String × String) → Option Val
  encode : Val → List (String × String)

/-- What `json.loads` hands back to `cache_handler`: a dict (field map) or
some other Python value with the given truthiness. -/
inductive Parsed where
  | dict (fields : List (String × String))
  | other (truthy : Bool)
deriving DecidableEq

/-- `RedisCacheManager.get_cache`: `redis.get`, the `if data:` truthiness test
on the raw payload, then `json.loads`; every exception (store failure or a
payload that is not valid JSON) is caught, logged and turned into `None`.
`getFails` injects a store failure on the `GET`. -/
def getCacheM (getFails : Bool) (st : Store) (key : String) : Option Parsed :=
  if getFails then none
  else
    match storeGet st key with
    | none => none
    | some v =>
      match v with
      | .emptyStr => none
      | .invalid => none
      | .obj fs => some (.dict fs)
      | .nonObj t => some (.other t)

/-- `RedisCacheManager.set_cache`: raises `TypeError` inside its own `try`
when the value is not an `ABCSchema` instance (write skipped), otherwise
serializes and calls `redis.set`; any store failure (`setFails`) is caught
and logged. In every failure case the store is left unchanged. -/
def setCacheM (M : DtoModel) (setFails isSchema : Bool) (st : Store)
    (key : String) (data : M.Val) (exp : Option Int) : Store :=
  if !isSchema then st
  else if setFails then st
  else storeSet st key (.obj (M.encode data)) exp

/-- The outcome of one `cache_handler` call: the value it returns (or
`Except.error` when an uncaught exception escapes the call) and whether the
wrapped operation was invoked. -/
structure CHResult (V : Type) where
  result : Except Unit V
  invoked : Bool

/-- `RedisCacheManager.cache_handler`: builds the key, reads the cache, and on
a truthy cached dict evaluates `dto_model(**cache_data)` — with no exception
handling around it, so a failed validation escapes the call (and so does the
`TypeError` from unpacking a truthy non-mapping). Otherwise it invokes the
wrapped operation (`fresh` is the value that invocation produces), writes the
result through `set_cache` and returns it. -/
def cacheHandler (M : DtoModel) (getFails setFails isSchema : Bool)
    (p funcName : String) (additionalKey : Option String)
    (userId : Option UserId) (expire : Option Int) (fresh : M.Val)
    (st : Store) : CHResult M.Val × Store :=
  let cacheKey := generateHandlerKey p funcName additionalKey userId
  let missPath : CHResult M.Val × Store :=
    (⟨.ok fresh, true⟩, setCacheM M setFails isSchema st cacheKey fresh expire)
  match getCacheM getFails st cacheKey with
  | some (.dict fs) =>
    if fs.isEmpty then missPath
    else
      match M.decode fs with
      | some v => (⟨.ok v, false⟩, st)
      | none => (⟨.error (), false⟩, st)
  | some (.other t) => if t then (⟨.error (), false⟩, st) else missPath
  | none => missPath

/-- A schema type with one required string field `name`, as in the repository
test model `class TestModel(ABCSchema)`. -/
def nameModel : DtoModel where
  Val := String
  decode fs := fs.lookup "name"
  encode v := [("name", v)]

/-- A schema type with no fields: it serializes to the empty JSON object and
validates against any field map. -/
def emptyModel : DtoModel where
  Val := Unit
  decode _ := some ()
  encode _ := []

deriving instance DecidableEq for Except

/-- A storage-level error surfaced through SQLAlchemy. -/
inductive PgError where
  | integrityError
deriving DecidableEq

/-- The achievements table: rows `(user_id, name)` (the `unlocked_at` column
plays no role in the verified behaviour). -/
abbrev AchDb : Type := List (Int × String)

/-- Modelled from the spec: `AchievementRepository.check_existing` is called
by `check_user_achievement` but its definition is absent from the sources
(`ABCRepository` and `AchievementRepository` do not define it); the spec says
"check existence of an `AchievementRecord` for (user_id, achievement_name)". -/
def checkExisting (db : AchDb) (userId : Int) (name : String) : Bool :=
  db.contains (userId, name)

/-- `ABCRepository.create` for the `Achievement` model: `session.add` +
`flush`, which the uniqueness constraint `uix_achievements_user_name` on
`(user_id, name)` rejects with an `IntegrityError` when the pair is already
present. -/
def achievementCreate (db : AchDb) (userId : Int) (name : String) :
    Except PgError AchDb :=
  if db.contains (userId, name) then .error .integrityError
  else .ok ((userId, name) :: db)

/-- `check_user_achievement` under `session_decorator`. The two database
arguments model interleaving with concurrent workers: `dbAtCheck` is the
state the existence check reads, `dbAtInsert` the committed state the insert
is validated against (they coincide when no concurrent insert happened).
On an insert error `session_decorator` rolls the transaction back and
re-raises; nothing in `check_user_achievement` or `process_event` catches
it. -/
def checkUserAchievementRace (achievement : String) (userId : Int)
    (dbAtCheck dbAtInsert : AchDb) : Except PgError (Bool × AchDb) :=
  if checkExisting dbAtCheck userId achievement then .ok (true, dbAtInsert)
  else
    match achievementCreate dbAtInsert userId achievement with
    | .ok db2 => .ok (false, db2)
    | .error e => .error e

/-- `check_user_achievement` in the absence of concurrent writers. -/
def checkUserAchievement (achievement : String) (userId : Int) (db : AchDb) :
    Except PgError (Bool × AchDb) :=
  checkUserAchievementRace achievement userId db db

/-- The result of the `match event_type:` block in `process_event`. -/
structure MatchResult where
  scores : Int
  achievement : Option String
deriving DecidableEq

/-- The `match event_type:` block of `process_event`, against the
`EventTypeEnum` values and the `AchievementsEnum` values; any other event
type leaves `scores = 0` and `achievement = None`. -/
def eventMatch (eventType : String) (level : Int) : MatchResult :=
  if eventType = "login" then ⟨5, some "Новичок"⟩
  else if eventType = "find_secret" then ⟨50, some "Исследователь"⟩
  else if eventType = "complete_level" then ⟨20 + level, some "Мастер"⟩
  else ⟨0, none⟩

/-- The per-user score counters, keyed by user id (each counter lives at
`scoresKey user_id` in Redis; a missing key reads as 0). -/
abbrev Ledger : Type := List (Int × Int)

/-- Reading a counter: Redis `GET`, defaulting to 0 (`get_scores`). -/
def ledgerGet (l : Ledger) (userId : Int) : Int :=
  match l.lookup userId with
  | some v => v
  | none => 0

/-- `RedisManager.update_scores`: atomic `INCRBY`, creating the counter at 0
on first use. -/
def ledgerIncr (l : Ledger) (userId delta : Int) : Ledger :=
  (userId, ledgerGet l userId + delta) :: l.filter (fun e => !(e.1 == userId))

/-- The state `process_event` acts on: the score ledger, the achievements
table, and the log of emitted achievement notifications
(`send_achievement_notification` calls, newest first). -/
structure PipelineState where
  ledger : Ledger
  achDb : AchDb
  notifs : List (String × Int)
deriving DecidableEq

/-- `process_event` with the insert validated against `dbAtInsert` (see
`checkUserAchievementRace`): match the event type, increment the ledger when
the computed score is positive, and when a candidate achievement is set
(candidates are always non-empty strings, so `if achievement:` is their
presence) run the existence check / insert and notify when the record was
absent. An uncaught storage error propagates and fails the work item. -/
def processEventRace (eventType : String) (userId : Int) (level : Int)
    (st : PipelineState) (dbAtInsert : AchDb) : Except PgError PipelineState :=
  let m := eventMatch eventType level
  let st1 :=
    if m.scores > 0 then
      { st with ledger := ledgerIncr st.ledger userId m.scores }
    else st
  match m.achievement with
  | none => .ok st1
  | some ach =>
    match checkUserAchievementRace ach userId st1.achDb dbAtInsert with
    | .error e => .error e
    | .ok (isExist, db2) =>
      if isExist then .ok { st1 with achDb := db2 }
      else .ok { st1 with achDb := db2, notifs := (ach, userId) :: st1.notifs }

/-- `process_event` in the absence of concurrent workers. -/
def processEvent (eventType : String) (userId : Int) (level : Int)
    (st : PipelineState) : Except PgError PipelineState :=
  processEventRace eventType userId level st st.achDb

/-- Sequential processing of `n` identical work items. -/
def processEvents (eventType : String) (userId : Int) (level : Int) :
    Nat → PipelineState → Except PgError PipelineState
  | 0, st => .ok st
  | n + 1, st =>
    match processEvent eventType userId level st with
    | .ok st' => processEvents eventType userId level n st'
    | .error e => .error e

/-- The characters the key builder appends for the optional user id: the
user pattern when the id is truthy, nothing otherwise. -/
def uSeg : Option UserId → List Char
  | some u =>
    if u.truthy then 'u' :: 's' :: 'e' :: 'r' :: ':' :: (u.interp.data ++ [':']) else []
  | none => []

/-- The characters the key builder appends for the optional additional key:
its characters when truthy, nothing otherwise. -/
def qSeg : Option String → List Char
  | some a => if a != "" then a.data else []
  | none => []

/-- Well-formed additional key: absent, or non-empty and free of the `:`
delimiter. -/
def qWf : Option String → Prop
  | none => True
  | some a => a ≠ "" ∧ ':' ∉ a.data

/-- Well-formed user id: absent, or truthy with an interpolation free of the
`:` delimiter. -/
def uWf : Option UserId → Prop
  | none => True
  | some u => u.truthy = true ∧ ':' ∉ u.interp.data

theorem digitChar_ne_slash (n : Nat) : digitChar n ≠ '/' := by
  unfold digitChar
  repeat' split
  all_goals decide

theorem slash_not_mem_natCharsAux : ∀ fuel n, '/' ∉ natCharsAux fuel n := by
  intro fuel
  induction fuel with
  | zero => intro n; simp [natCharsAux]
  | succ m ih =>
    intro n
    by_cases h : n < 10
    · simp [natCharsAux, h]
      exact (digitChar_ne_slash n).symm
    · simp [natCharsAux, h, List.mem_append]
      exact ⟨ih _, fun hc => (digitChar_ne_slash _) hc.symm⟩

theorem slash_not_mem_intRepr (n : Int) : '/' ∉ (intRepr n).data := by
  cases n with
  | ofNat m => simpa [intRepr, natChars] using slash_not_mem_natCharsAux (m + 1) m
  | negSucc m =>
    simp [intRepr, natChars]
    exact slash_not_mem_natCharsAux _ _

theorem slash_not_mem_scoresKey (uid : Int) : '/' ∉ (scoresKey uid).data := by
  simp [scoresKey, createKey, String.data_append]
  exact slash_not_mem_intRepr uid

theorem globMatchAux_lit_mem {c : Char} (hstar : c ≠ '*') (hq : c ≠ '?') :
    ∀ fuel p s, globMatchAux fuel p s = true → c ∈ p → c ∈ s := by
  intro fuel
  induction fuel with
  | zero => intro p s h _; simp [globMatchAux] at h
  | succ n ih =>
    intro p s h hmem
    cases p with
    | nil => simp at hmem
    | cons x ps =>
      by_cases hx : x = '*'
      · subst hx
        have hc : c ∈ ps := by
          rcases List.mem_cons.mp hmem with h1 | h1
          · exact absurd h1 hstar
          · exact h1
        cases s with
        | nil =>
          simp [globMatchAux] at h
          exact ih ps [] h hc
        | cons y ss =>
          simp [globMatchAux] at h
          rcases h with h | h
          · exact ih ps (y :: ss) h hc
          · exact List.mem_cons_of_mem y (ih _ ss h hmem)
      · by_cases hxq : x = '?'
        · subst hxq
          cases s with
          | nil => simp [globMatchAux, hx] at h
          | cons y ss =>
            have hc : c ∈ ps := by
              rcases List.mem_cons.mp hmem with h1 | h1
              · exact absurd h1 hq
              · exact h1
            simp [globMatchAux, hx] at h
            exact List.mem_cons_of_mem y (ih ps ss h hc)
        · cases s with
          | nil => simp [globMatchAux, hx] at h
          | cons y ss =>
            simp [globMatchAux, hx, hxq] at h
            rcases List.mem_cons.mp hmem with h1 | h1
            · subst h1
              exact h.1 ▸ List.mem_cons_self _ _
            · exact List.mem_cons_of_mem y (ih ps ss h.2 h1)

theorem globMatch_lit_mem {pat s : String} {c : Char} (hstar : c ≠ '*')
    (hq : c ≠ '?') (h : globMatch pat s = true) (hmem : c ∈ pat.data) :
    c ∈ s.data :=
  globMatchAux_lit_mem hstar hq _ _ _ h hmem

theorem slash_mem_pfxPattern (p : String) :
    '/' ∈ ("*" ++ createCachePfxPattern p ++ "*").data := by
  simp [createCachePfxPattern, String.data_append, List.mem_append]

theorem ledger_key_no_match (p : String) (uid : Int) :
    globMatch ("*" ++ createCachePfxPattern p ++ "*") (scoresKey uid) = false := by
  by_contra hb
  have hT : globMatch ("*" ++ createCachePfxPattern p ++ "*") (scoresKey uid) = true := by
    revert hb; cases globMatch ("*" ++ createCachePfxPattern p ++ "*") (scoresKey uid) <;> simp
  exact slash_not_mem_scoresKey uid
    (globMatch_lit_mem (by decide) (by decide) hT (slash_mem_pfxPattern p))

theorem storeGet_storeSet_self (st : Store) (k : String) (v : StoredVal) (t : Option Int) :
    storeGet (storeSet st k v t) k = some v := by
  simp [storeGet, storeSet, List.find?]

theorem ledgerGet_ledgerIncr_self (l : Ledger) (uid d : Int) :
    ledgerGet (ledgerIncr l uid d) uid = ledgerGet l uid + d := by
  simp [ledgerIncr, ledgerGet, List.lookup]

theorem processEvent_eq (et : String) (uid lvl : Int) (st : PipelineState) :
    processEvent et uid lvl st = .ok (
      let l1 := if (eventMatch et lvl).scores > 0 then
          ledgerIncr st.ledger uid (eventMatch et lvl).scores
        else st.ledger
      match (eventMatch et lvl).achievement with
      | none => ⟨l1, st.achDb, st.notifs⟩
      | some a =>
        if st.achDb.contains (uid, a) then ⟨l1, st.achDb, st.notifs⟩
        else ⟨l1, (uid, a) :: st.achDb, (a, uid) :: st.notifs⟩) := by
  unfold processEvent processEventRace checkUserAchievementRace
    checkExisting achievementCreate
  cases hach : (eventMatch et lvl).achievement with
  | none =>
    by_cases hsc : (eventMatch et lvl).scores > 0 <;> simp [hach, hsc]
  | some a =>
    by_cases hsc : (eventMatch et lvl).scores > 0 <;>
      by_cases hex : (uid, a) ∈ st.achDb <;>
        simp [hach, hsc, hex]

theorem processEvents_stable (et : String) (uid lvl : Int) (ach : String)
    (hach : (eventMatch et lvl).achievement = some ach) :
    ∀ (n : Nat) (st : PipelineState), (uid, ach) ∈ st.achDb →
      ∃ st', processEvents et uid lvl n st = .ok st'
        ∧ st'.achDb = st.achDb ∧ st'.notifs = st.notifs := by
  intro n
  induction n with
  | zero => intro st _; exact ⟨st, rfl, rfl, rfl⟩
  | succ k ih =>
    intro st hm
    have hstep := processEvent_eq et uid lvl st
    rw [hach] at hstep
    simp [hm] at hstep
    by_cases hsc : 0 < (eventMatch et lvl).scores
    · simp only [hsc, if_true] at hstep
      obtain ⟨st', h1, h2, h3⟩ := ih ⟨ledgerIncr st.ledger uid (eventMatch et lvl).scores,
        st.achDb, st.notifs⟩ hm
      exact ⟨st', by simp [processEvents, hstep, h1], h2, h3⟩
    · simp only [hsc, if_false] at hstep
      obtain ⟨st', h1, h2, h3⟩ := ih ⟨st.ledger, st.achDb, st.notifs⟩ hm
      exact ⟨st', by simp [processEvents, hstep, h1], h2, h3⟩

theorem data_lit_colon : (":" : String).data = [':'] := rfl

theorem data_lit_user : ("user:" : String).data = ['u', 's', 'e', 'r', ':'] := rfl

theorem generateHandlerKey_data (p f : String) (q : Option String) (u : Option UserId) :
    (generateHandlerKey p f q u).data =
      ':' :: (p.data ++ ':' :: '/' :: '/' :: (f.data ++ ':' :: (uSeg u ++ qSeg q))) := by
  cases u with
  | none =>
    cases q with
    | none =>
      simp [generateHandlerKey, createCachePfxPattern, uSeg, qSeg, String.data_append]
    | some a =>
      by_cases ha : (a != "") = true <;>
        simp [generateHandlerKey, createCachePfxPattern, uSeg, qSeg, ha, String.data_append]
  | some u' =>
    by_cases hu : u'.truthy = true
    · cases q with
      | none =>
        simp [generateHandlerKey, createCachePfxPattern, createUserPattern, uSeg, qSeg, hu,
          String.data_append, data_lit_user]
      | some a =>
        by_cases ha : (a != "") = true <;>
          simp [generateHandlerKey, createCachePfxPattern, createUserPattern, uSeg, qSeg, hu, ha,
            String.data_append, data_lit_user]
    · cases q with
      | none =>
        simp [generateHandlerKey, createCachePfxPattern, uSeg, qSeg, hu, String.data_append]
      | some a =>
        by_cases ha : (a != "") = true <;>
          simp [generateHandlerKey, createCachePfxPattern, uSeg, qSeg, hu, ha, String.data_append]

theorem append_sep_inj {c : Char} :
    ∀ {a₁ : List Char} {b₁ a₂ b₂ : List Char}, c ∉ a₁ → c ∉ a₂ →
      a₁ ++ c :: b₁ = a₂ ++ c :: b₂ → a₁ = a₂ ∧ b₁ = b₂ := by
  intro a₁
  induction a₁ with
  | nil =>
    intro b₁ a₂ b₂ _ h2 h
    cases a₂ with
    | nil => simpa using h
    | cons y ys =>
      simp at h
      exact absurd (h.1 ▸ List.mem_cons_self y ys) (h.1 ▸ h2)
  | cons x xs ih =>
    intro b₁ a₂ b₂ h1 h2 h
    cases a₂ with
    | nil =>
      simp at h
      exact absurd (h.1.symm ▸ List.mem_cons_self x xs) (h.1.symm ▸ h1)
    | cons y ys =>
      simp at h
      obtain ⟨rfl, h⟩ := h
      have := ih (fun hm => h1 (List.mem_cons_of_mem _ hm))
        (fun hm => h2 (List.mem_cons_of_mem _ hm)) h
      exact ⟨by rw [this.1], this.2⟩

theorem colon_not_mem_qSeg {q : Option String} (h : qWf q) : ':' ∉ qSeg q := by
  cases q with
  | none => simp [qSeg]
  | some a =>
    have ha : (a != "") = true := bne_iff_ne.mpr h.1
    simpa [qSeg, ha] using h.2

theorem data_eq_nil_iff {a : String} : a.data = [] ↔ a = "" := by
  constructor
  · intro h; exact String.ext h
  · intro h; subst h; rfl

theorem qSeg_inj {q₁ q₂ : Option String} (h₁ : qWf q₁) (h₂ : qWf q₂)
    (h : qSeg q₁ = qSeg q₂) : q₁ = q₂ := by
  cases q₁ with
  | none =>
    cases q₂ with
    | none => rfl
    | some a₂ =>
      have ha : (a₂ != "") = true := bne_iff_ne.mpr h₂.1
      simp [qSeg, ha] at h
      exact absurd (String.ext h.symm) h₂.1.symm
  | some a₁ =>
    have ha₁ : (a₁ != "") = true := bne_iff_ne.mpr h₁.1
    cases q₂ with
    | none =>
      simp [qSeg, ha₁] at h
      exact absurd (String.ext h) h₁.1
    | some a₂ =>
      have ha₂ : (a₂ != "") = true := bne_iff_ne.mpr h₂.1
      simp [qSeg, ha₁, ha₂] at h
      exact congrArg some (String.ext h)

theorem tail_inj {u₁ u₂ : Option UserId} {q₁ q₂ : Option String}
    (hu₁ : uWf u₁) (hu₂ : uWf u₂) (hq₁ : qWf q₁) (hq₂ : qWf q₂)
    (h : uSeg u₁ ++ qSeg q₁ = uSeg u₂ ++ qSeg q₂) :
    q₁ = q₂ ∧ Option.map UserId.interp u₁ = Option.map UserId.interp u₂ := by
  cases u₁ with
  | none =>
    cases u₂ with
    | none =>
      simp [uSeg] at h
      exact ⟨qSeg_inj hq₁ hq₂ h, rfl⟩
    | some v₂ =>
      simp [uSeg, hu₂.1] at h
      have : ':' ∈ qSeg q₁ := by
        rw [h]
        simp
      exact absurd this (colon_not_mem_qSeg hq₁)
  | some v₁ =>
    cases u₂ with
    | none =>
      simp [uSeg, hu₁.1] at h
      have : ':' ∈ qSeg q₂ := by
        rw [← h]
        simp
      exact absurd this (colon_not_mem_qSeg hq₂)
    | some v₂ =>
      simp only [uSeg, hu₁.1, hu₂.1, if_true, List.cons_append, List.append_assoc,
        List.singleton_append] at h
      obtain ⟨-, -, -, -, -, h⟩ : 'u' = 'u' ∧ 's' = 's' ∧ 'e' = 'e' ∧ 'r' = 'r' ∧
          (':' : Char) = ':' ∧
          v₁.interp.data ++ ':' :: qSeg q₁ = v₂.interp.data ++ ':' :: qSeg q₂ := by
        simpa using h
      obtain ⟨hi, hrest⟩ := append_sep_inj hu₁.2 hu₂.2 h
      exact ⟨qSeg_inj hq₁ hq₂ hrest, by rw [Option.map, Option.map, String.ext hi]⟩


/-- Claim C1 (counterexample): `invalidate_all` does not leave ledger keys
unchanged — `flushdb` clears the logical database the cache shares with the
score ledger, so a store holding only the ledger key `user:1:scores` is
emptied by it. -/
theorem claim1_flushdb_removes_ledger_key :
    (⟨scoresKey 1, .nonObj true, none⟩ : CacheEntry)
        ∈ ([⟨scoresKey 1, .nonObj true, none⟩] : Store)
    ∧ (⟨scoresKey 1, .nonObj true, none⟩ : CacheEntry)
        ∉ invalidateAll [⟨scoresKey 1, .nonObj true, none⟩] := by
  decide

/-- Claim C1 (amended): `invalidate_by_prefix` (for every prefix) and
`invalidate_by_user` (for every user id) never remove a ledger key
`user:<id>:scores` from any store state; `invalidate_all`, however, flushes
the whole shared logical database, removing every entry — ledger keys
included. -/
theorem claim1_ledger_frame :
    (∀ (uid : Int) (p : String) (st : Store) (e : CacheEntry),
      e.key = scoresKey uid → e ∈ st → e ∈ invalidateByPfx p st)
    ∧ (∀ (uid : Int) (u : UserId) (st : Store) (e : CacheEntry),
      e.key = scoresKey uid → e ∈ st → e ∈ invalidateByUser u st)
    ∧ (∀ st : Store, invalidateAll st = []) := by
  refine ⟨?_, ?_, fun _ => rfl⟩
  · intro uid p st e hkey he
    unfold invalidateByPfx
    by_cases hks : (scanKeys ("*" ++ createCachePfxPattern p ++ "*") st).isEmpty
    · simp [hks, he]
    · simp only [hks, Bool.false_eq_true, if_false]
      refine List.mem_filter.mpr ⟨he, ?_⟩
      simp only [Bool.not_eq_true']
      by_contra hb
      have hc : e.key ∈ scanKeys ("*" ++ createCachePfxPattern p ++ "*") st := by
        revert hb
        cases hcc : (scanKeys ("*" ++ createCachePfxPattern p ++ "*") st).contains e.key
        · simp
        · intro _
          exact List.elem_iff.mp hcc
      have hm : globMatch ("*" ++ createCachePfxPattern p ++ "*") e.key = true :=
        (List.mem_filter.mp hc).2
      rw [hkey] at hm
      exact absurd hm (by simp [ledger_key_no_match p uid])
  · intro uid u st e hkey he
    unfold invalidateByUser
    by_cases hks : (scanKeys ("*:" ++ createUserPattern u ++ ":*") st).isEmpty <;>
      simp [hks, he]

/-- Claim C1 witness: a concrete ledger entry survives a prefix invalidation
and a user invalidation. -/
theorem claim1_ledger_frame_witness :
    (⟨scoresKey 2, .nonObj true, none⟩ : CacheEntry).key = scoresKey 2
    ∧ (⟨scoresKey 2, .nonObj true, none⟩ : CacheEntry)
        ∈ ([⟨scoresKey 2, .nonObj true, none⟩] : Store)
    ∧ (⟨scoresKey 2, .nonObj true, none⟩ : CacheEntry)
        ∈ invalidateByPfx "api" [⟨scoresKey 2, .nonObj true, none⟩]
    ∧ (⟨scoresKey 2, .nonObj true, none⟩ : CacheEntry)
        ∈ invalidateByUser (.i 3) [⟨scoresKey 2, .nonObj true, none⟩] :=
  ⟨rfl, by decide,
    claim1_ledger_frame.1 2 "api" _ _ rfl (by decide),
    claim1_ledger_frame.2.1 2 (.i 3) _ _ rfl (by decide)⟩

/-- Claim C2: at-most-once achievement award in sequential processing — when
an event carries a candidate achievement and no `(user_id, name)` record
exists, processing `n + 1` identical events creates exactly one record and
emits exactly one notification. -/
theorem claim2_at_most_once_award : ∀ (et : String) (uid lvl : Int)
    (ach : String) (st0 : PipelineState) (n : Nat),
    (eventMatch et lvl).achievement = some ach →
    st0.achDb.count (uid, ach) = 0 →
    ∃ st', processEvents et uid lvl (n + 1) st0 = .ok st'
      ∧ st'.achDb.count (uid, ach) = 1
      ∧ st'.notifs.count (ach, uid) = st0.notifs.count (ach, uid) + 1 := by
  intro et uid lvl ach st0 n hach h0
  have hnm : (uid, ach) ∉ st0.achDb := List.count_eq_zero.mp h0
  have hstep := processEvent_eq et uid lvl st0
  rw [hach] at hstep
  simp [hnm] at hstep
  by_cases hsc : 0 < (eventMatch et lvl).scores
  · simp only [hsc, if_true] at hstep
    obtain ⟨st', h1, h2, h3⟩ := processEvents_stable et uid lvl ach hach n
      ⟨ledgerIncr st0.ledger uid (eventMatch et lvl).scores,
        (uid, ach) :: st0.achDb, (ach, uid) :: st0.notifs⟩
      (List.mem_cons_self _ _)
    refine ⟨st', by simp [processEvents, hstep, h1], ?_, ?_⟩
    · rw [h2]
      simp [List.count_cons_self, h0]
    · rw [h3]
      simp [List.count_cons_self]
  · simp only [hsc, if_false] at hstep
    obtain ⟨st', h1, h2, h3⟩ := processEvents_stable et uid lvl ach hach n
      ⟨st0.ledger, (uid, ach) :: st0.achDb, (ach, uid) :: st0.notifs⟩
      (List.mem_cons_self _ _)
    refine ⟨st', by simp [processEvents, hstep, h1], ?_, ?_⟩
    · rw [h2]
      simp [List.count_cons_self, h0]
    · rw [h3]
      simp [List.count_cons_self]

/-- Claim C2 witness: two identical `login` events for user 1 starting from
empty state yield one record and one notification. -/
theorem claim2_at_most_once_award_witness :
    (eventMatch "login" 0).achievement = some "Новичок"
    ∧ (⟨[], [], []⟩ : PipelineState).achDb.count (1, "Новичок") = 0
    ∧ ∃ st', processEvents "login" 1 0 2 ⟨[], [], []⟩ = .ok st'
        ∧ st'.achDb.count (1, "Новичок") = 1
        ∧ st'.notifs.count ("Новичок", 1)
            = (⟨[], [], []⟩ : PipelineState).notifs.count ("Новичок", 1) + 1 :=
  ⟨rfl, rfl, claim2_at_most_once_award "login" 1 0 "Новичок" ⟨[], [], []⟩ 1 rfl rfl⟩

/-- Claim C3: when a concurrent worker has inserted the same
`(user_id, name)` pair between the existence check and the flush, the
uniqueness constraint rejects the insert and the resulting `IntegrityError`
escapes `process_event` (the session decorator rolls back and re-raises;
nothing treats it as "already awarded"), failing the work item — contrary to
the claim. -/
theorem claim3_integrity_error_escapes :
    processEventRace "login" 1 0 ⟨[], [], []⟩ [(1, "Новичок")]
      = .error .integrityError := by
  decide

/-- Claim C4: the event-type enumeration computes exactly the specified score
deltas (`login` 5, `find_secret` 50, `complete_level` 20 + level, otherwise
0), the ledger is incremented by the delta exactly when it is positive,
unknown event types leave the whole state unchanged, and no input raises. -/
theorem claim4_event_scoring : ∀ (et : String) (uid lvl : Int)
    (st : PipelineState),
    ∃ st', processEvent et uid lvl st = .ok st'
      ∧ (eventMatch et lvl).scores =
          (if et = "login" then 5 else if et = "find_secret" then 50
            else if et = "complete_level" then 20 + lvl else 0)
      ∧ ledgerGet st'.ledger uid =
          ledgerGet st.ledger uid +
            (if (eventMatch et lvl).scores > 0 then (eventMatch et lvl).scores else 0)
      ∧ (et ≠ "login" → et ≠ "find_secret" → et ≠ "complete_level" → st' = st) := by
  intro et uid lvl st
  refine ⟨_, processEvent_eq et uid lvl st, ?_, ?_, ?_⟩
  · unfold eventMatch
    split_ifs <;> rfl
  · cases hach : (eventMatch et lvl).achievement with
    | none =>
      by_cases hsc : (eventMatch et lvl).scores > 0 <;>
        simp [hach, hsc, ledgerGet_ledgerIncr_self]
    | some a =>
      by_cases hsc : (eventMatch et lvl).scores > 0 <;>
        by_cases hex : (uid, a) ∈ st.achDb <;>
          simp [hach, hsc, hex, ledgerGet_ledgerIncr_self]
  · intro h1 h2 h3
    have hm : eventMatch et lvl = ⟨0, none⟩ := by simp [eventMatch, h1, h2, h3]
    simp [hm]

/-- Claim C4 witness: a `complete_level` event at level 10 for user 2. -/
theorem claim4_event_scoring_witness :
    ∃ st', processEvent "complete_level" 2 10 ⟨[], [], []⟩ = .ok st'
      ∧ (eventMatch "complete_level" 10).scores =
          (if "complete_level" = "login" then 5
            else if "complete_level" = "find_secret" then 50
            else if "complete_level" = "complete_level" then 20 + 10 else 0)
      ∧ ledgerGet st'.ledger 2 =
          ledgerGet (⟨[], [], []⟩ : PipelineState).ledger 2 +
            (if (eventMatch "complete_level" 10).scores > 0 then
              (eventMatch "complete_level" 10).scores else 0)
      ∧ ("complete_level" ≠ "login" → "complete_level" ≠ "find_secret" →
          "complete_level" ≠ "complete_level" → st' = ⟨[], [], []⟩) :=
  claim4_event_scoring "complete_level" 2 10 ⟨[], [], []⟩

/-- Claim C5 (counterexample): the key builder is not injective — a falsy
`user_id = 0` collapses with an absent one, a qualifier that spells out a
user pattern collapses with the corresponding user id, and an integer and a
string user id with the same digits collapse. -/
theorem claim5_key_collisions :
    (generateHandlerKey "api" "f" none (some (.i 0)) = generateHandlerKey "api" "f" none none
      ∧ (some (UserId.i 0) : Option UserId) ≠ none)
    ∧ (generateHandlerKey "p" "f" (some "user:5:x") none
        = generateHandlerKey "p" "f" (some "x") (some (.i 5))
      ∧ (some "user:5:x" : Option String) ≠ some "x")
    ∧ (generateHandlerKey "p" "f" none (some (.i 5))
        = generateHandlerKey "p" "f" none (some (.s "5"))
      ∧ UserId.i 5 ≠ UserId.s "5") := by
  refine ⟨⟨?_, ?_⟩, ⟨?_, ?_⟩, ⟨?_, ?_⟩⟩ <;> decide

/-- Claim C5 (amended): the key builder is injective on well-formed inputs —
prefix and operation name free of the `:` delimiter, qualifier absent or
non-empty and delimiter-free, user id absent or truthy with a delimiter-free
rendering — and determines the user id up to its rendered string. -/
theorem claim5_key_injective_restricted :
    ∀ (p₁ f₁ : String) (q₁ : Option String) (u₁ : Option UserId)
      (p₂ f₂ : String) (q₂ : Option String) (u₂ : Option UserId),
      ':' ∉ p₁.data → ':' ∉ f₁.data → qWf q₁ → uWf u₁ →
      ':' ∉ p₂.data → ':' ∉ f₂.data → qWf q₂ → uWf u₂ →
      generateHandlerKey p₁ f₁ q₁ u₁ = generateHandlerKey p₂ f₂ q₂ u₂ →
      p₁ = p₂ ∧ f₁ = f₂ ∧ q₁ = q₂ ∧
        Option.map UserId.interp u₁ = Option.map UserId.interp u₂ := by
  intro p₁ f₁ q₁ u₁ p₂ f₂ q₂ u₂ hp₁ hf₁ hq₁ hu₁ hp₂ hf₂ hq₂ hu₂ h
  have hd := congrArg String.data h
  rw [generateHandlerKey_data, generateHandlerKey_data] at hd
  have hd' : p₁.data ++ ':' :: ('/' :: '/' :: (f₁.data ++ ':' :: (uSeg u₁ ++ qSeg q₁)))
      = p₂.data ++ ':' :: ('/' :: '/' :: (f₂.data ++ ':' :: (uSeg u₂ ++ qSeg q₂))) := by
    simpa using hd
  obtain ⟨hp, hrest⟩ := append_sep_inj hp₁ hp₂ hd'
  have hrest' : f₁.data ++ ':' :: (uSeg u₁ ++ qSeg q₁)
      = f₂.data ++ ':' :: (uSeg u₂ ++ qSeg q₂) := by
    simpa using hrest
  obtain ⟨hf, htail⟩ := append_sep_inj hf₁ hf₂ hrest'
  obtain ⟨hU, hQ⟩ := tail_inj hu₁ hu₂ hq₁ hq₂ htail
  exact ⟨String.ext hp, String.ext hf, hU, hQ⟩

/-- Claim C5 witness: the restricted injectivity applied at a concrete
well-formed tuple. -/
theorem claim5_key_injective_restricted_witness :
    (':' ∉ ("api" : String).data) ∧ qWf (some "recent") ∧ uWf (some (.s "u7")) ∧
    ("api" = "api" ∧ "getstats" = "getstats" ∧
      (some "recent" : Option String) = some "recent" ∧
      Option.map UserId.interp (some (.s "u7"))
        = Option.map UserId.interp (some (.s "u7"))) :=
  ⟨by decide, ⟨by decide, by decide⟩, ⟨by decide, by decide⟩,
    claim5_key_injective_restricted "api" "getstats" (some "recent") (some (.s "u7"))
      "api" "getstats" (some "recent") (some (.s "u7"))
      (by decide) (by decide) ⟨by decide, by decide⟩ ⟨by decide, by decide⟩
      (by decide) (by decide) ⟨by decide, by decide⟩ ⟨by decide, by decide⟩ rfl⟩

/-- Claim C6 (counterexample): for the present but falsy `user_id = 0` the
built key omits the `user:0:` segment required by the stated format. -/
theorem claim6_key_format_counterexample :
    generateHandlerKey "api" "f" none (some (.i 0))
      ≠ specKeyFormat "api" "f" none (some (.i 0)) := by
  decide

/-- Claim C6 (amended): the built key equals the stated concatenation
`:<prefix>://` ++ `<operation_name>:` ++ optional `user:<user_id>:` ++
optional qualifier, with no trailing separator — provided a present user id
is truthy (not `0` or `""`) and a present qualifier is non-empty. -/
theorem claim6_key_format_truthy : ∀ (p f : String) (q : Option String)
    (u : Option UserId),
    (∀ u', u = some u' → u'.truthy = true) →
    (∀ a, q = some a → a ≠ "") →
    generateHandlerKey p f q u = specKeyFormat p f q u := by
  intro p f q u hu hq
  cases u with
  | none =>
    cases q with
    | none =>
      apply String.ext
      simp [generateHandlerKey, specKeyFormat, createCachePfxPattern,
        String.data_append]
    | some a =>
      have hq' : (a != "") = true := bne_iff_ne.mpr (hq a rfl)
      apply String.ext
      simp [generateHandlerKey, specKeyFormat, createCachePfxPattern, hq',
        String.data_append]
  | some u' =>
    have hu' : u'.truthy = true := hu u' rfl
    cases q with
    | none =>
      apply String.ext
      simp [generateHandlerKey, specKeyFormat, createCachePfxPattern,
        createUserPattern, hu', String.data_append]
    | some a =>
      have hq' : (a != "") = true := bne_iff_ne.mpr (hq a rfl)
      apply String.ext
      simp [generateHandlerKey, specKeyFormat, createCachePfxPattern,
        createUserPattern, hu', hq', String.data_append]

/-- Claim C6 witness: the format equality at a concrete truthy tuple. -/
theorem claim6_key_format_truthy_witness :
    generateHandlerKey "api" "getuser" (some "recent") (some (.i 123))
      = specKeyFormat "api" "getuser" (some "recent") (some (.i 123)) :=
  claim6_key_format_truthy "api" "getuser" (some "recent") (some (.i 123))
    (fun u' h => by injection h with h2; subst h2; decide)
    (fun a h => by injection h with h2; subst h2; decide)

/-- Claim C7 (counterexample): a cached payload that is a valid, non-empty
JSON object but fails validation against the result type makes
`cache_handler` raise without invoking the wrapped operation — the failure is
not treated as a miss. -/
theorem claim7_validation_error_escapes :
    (cacheHandler nameModel false false true "api" "f" none none none "fresh"
      [⟨":api://f:", .obj [("bogus", "1")], none⟩]).1.result = .error ()
    ∧ (cacheHandler nameModel false false true "api" "f" none none none "fresh"
      [⟨":api://f:", .obj [("bogus", "1")], none⟩]).1.invoked = false := ⟨rfl, rfl⟩

/-- Claim C7 (amended): a failed store read, an empty payload or a payload
that is not valid JSON degrade to a miss (the operation is invoked and its
result returned); whenever the operation is invoked its result is returned to
the caller; a non-`ABCSchema` value or a failed store write skip the write and
leave the store unchanged without affecting the returned result. (A payload
that parses to a truthy value failing result-type validation, however, raises
— see the counterexample.) -/
theorem claim7_cache_fail_open :
    (∀ (M : DtoModel) (sf isS : Bool) (p f : String) (q : Option String)
        (u : Option UserId) (exp : Option Int) (fresh : M.Val) (st : Store),
      (cacheHandler M true sf isS p f q u exp fresh st).1 = ⟨.ok fresh, true⟩)
    ∧ (∀ (M : DtoModel) (gf sf isS : Bool) (p f : String) (q : Option String)
        (u : Option UserId) (exp : Option Int) (fresh : M.Val) (st : Store),
      storeGet st (generateHandlerKey p f q u) = some .invalid →
      (cacheHandler M gf sf isS p f q u exp fresh st).1 = ⟨.ok fresh, true⟩)
    ∧ (∀ (M : DtoModel) (gf sf isS : Bool) (p f : String) (q : Option String)
        (u : Option UserId) (exp : Option Int) (fresh : M.Val) (st : Store),
      storeGet st (generateHandlerKey p f q u) = some .emptyStr →
      (cacheHandler M gf sf isS p f q u exp fresh st).1 = ⟨.ok fresh, true⟩)
    ∧ (∀ (M : DtoModel) (gf sf isS : Bool) (p f : String) (q : Option String)
        (u : Option UserId) (exp : Option Int) (fresh : M.Val) (st : Store),
      (cacheHandler M gf sf isS p f q u exp fresh st).1.invoked = true →
      (cacheHandler M gf sf isS p f q u exp fresh st).1.result = .ok fresh)
    ∧ (∀ (M : DtoModel) (gf sf : Bool) (p f : String) (q : Option String)
        (u : Option UserId) (exp : Option Int) (fresh : M.Val) (st : Store),
      (cacheHandler M gf sf false p f q u exp fresh st).2 = st)
    ∧ (∀ (M : DtoModel) (gf isS : Bool) (p f : String) (q : Option String)
        (u : Option UserId) (exp : Option Int) (fresh : M.Val) (st : Store),
      (cacheHandler M gf true isS p f q u exp fresh st).2 = st) := by
  refine ⟨?_, ?_, ?_, ?_, ?_, ?_⟩
  · intro M sf isS p f q u exp fresh st
    rfl
  · intro M gf sf isS p f q u exp fresh st h
    cases gf
    · simp [cacheHandler, getCacheM, h]
    · rfl
  · intro M gf sf isS p f q u exp fresh st h
    cases gf
    · simp [cacheHandler, getCacheM, h]
    · rfl
  · intro M gf sf isS p f q u exp fresh st h
    revert h
    unfold cacheHandler
    cases hg : getCacheM gf st (generateHandlerKey p f q u) with
    | none => simp [hg]
    | some pv =>
      cases pv with
      | dict fs =>
        by_cases hfs : fs = []
        · simp [hg, hfs]
        · cases hd : M.decode fs <;> simp [hg, hfs, hd]
      | other t => cases t <;> simp [hg]
  · intro M gf sf p f q u exp fresh st
    unfold cacheHandler
    cases hg : getCacheM gf st (generateHandlerKey p f q u) with
    | none => simp [hg, setCacheM]
    | some pv =>
      cases pv with
      | dict fs =>
        by_cases hfs : fs = []
        · simp [hg, hfs, setCacheM]
        · cases hd : M.decode fs <;> simp [hg, hfs, hd]
      | other t => cases t <;> simp [hg, setCacheM]
  · intro M gf isS p f q u exp fresh st
    unfold cacheHandler
    cases hg : getCacheM gf st (generateHandlerKey p f q u) with
    | none => simp [hg, setCacheM]
    | some pv =>
      cases pv with
      | dict fs =>
        by_cases hfs : fs = []
        · simp [hg, hfs, setCacheM]
        · cases hd : M.decode fs <;> simp [hg, hfs, hd]
      | other t => cases t <;> simp [hg, setCacheM]

/-- Claim C7 witness: concrete instances — a failed read, a corrupt payload,
a failed write and a non-schema value. -/
theorem claim7_cache_fail_open_witness :
    (cacheHandler nameModel true false true "api" "f" none none none "x" []).1
        = ⟨.ok "x", true⟩
    ∧ (cacheHandler nameModel false false true "api" "f" none none none "x"
        [⟨":api://f:", .invalid, none⟩]).1 = ⟨.ok "x", true⟩
    ∧ (cacheHandler nameModel false true true "api" "f" none none none "x" []).2 = []
    ∧ (cacheHandler nameModel false false false "api" "f" none none none "x" []).2 = [] :=
  ⟨claim7_cache_fail_open.1 nameModel false true "api" "f" none none none "x" [],
    claim7_cache_fail_open.2.1 nameModel false false true "api" "f" none none none "x"
      [⟨":api://f:", .invalid, none⟩] rfl,
    claim7_cache_fail_open.2.2.2.2.2 nameModel false true "api" "f" none none none "x" [],
    claim7_cache_fail_open.2.2.2.2.1 nameModel false false "api" "f" none none none "x" []⟩

/-- Claim C8 (counterexample): for a result type with no fields the first
call populates the cache (the set succeeds and the entry is present), yet the
second identical call re-invokes the wrapped operation — the empty cached
object is truthiness-tested as a miss. -/
theorem claim8_empty_schema_reinvoked :
    (cacheHandler emptyModel false false true "api" "f" none none none () []).2
        = [⟨":api://f:", .obj [], none⟩]
    ∧ storeGet ((cacheHandler emptyModel false false true "api" "f" none none none () []).2)
        ":api://f:" = some (.obj (emptyModel.encode ()))
    ∧ (cacheHandler emptyModel false false true "api" "f" none none none ()
        ((cacheHandler emptyModel false false true "api" "f" none none none () []).2)).1.invoked
        = true := ⟨rfl, rfl, rfl⟩

/-- Claim C8 (amended): a first miss stores the serialized result under the
built key, and a second call with identical arguments against a store holding
that serialization returns the first result without invoking the operation —
for every result type whose serialization is a non-empty field map and
round-trips through validation. -/
theorem claim8_read_through_roundtrip :
    (∀ (M : DtoModel) (p f : String) (q : Option String) (u : Option UserId)
        (exp : Option Int) (fresh : M.Val) (st : Store),
      storeGet st (generateHandlerKey p f q u) = none →
      storeGet ((cacheHandler M false false true p f q u exp fresh st).2)
          (generateHandlerKey p f q u) = some (.obj (M.encode fresh)))
    ∧ (∀ (M : DtoModel) (sf isS : Bool) (p f : String) (q : Option String)
        (u : Option UserId) (exp : Option Int) (fresh fresh2 : M.Val) (st : Store),
      storeGet st (generateHandlerKey p f q u) = some (.obj (M.encode fresh)) →
      M.encode fresh ≠ [] →
      M.decode (M.encode fresh) = some fresh →
      (cacheHandler M false sf isS p f q u exp fresh2 st).1 = ⟨.ok fresh, false⟩) := by
  constructor
  · intro M p f q u exp fresh st h
    unfold cacheHandler
    simp [getCacheM, h, setCacheM, storeGet_storeSet_self]
  · intro M sf isS p f q u exp fresh fresh2 st h hne hdec
    unfold cacheHandler
    simp [getCacheM, h, hne, hdec]

/-- Claim C8 witness: the round trip at a one-field model. -/
theorem claim8_read_through_roundtrip_witness :
    storeGet ((cacheHandler nameModel false false true "api" "f" none none none "bob" []).2)
        (generateHandlerKey "api" "f" none none) = some (.obj (nameModel.encode "bob"))
    ∧ (cacheHandler nameModel false false true "api" "f" none none none "other"
        [⟨":api://f:", .obj (nameModel.encode "bob"), none⟩]).1 = ⟨.ok "bob", false⟩ :=
  ⟨claim8_read_through_roundtrip.1 nameModel "api" "f" none none none "bob" [] rfl,
    claim8_read_through_roundtrip.2 nameModel false true "api" "f" none none none "bob" "other"
      [⟨":api://f:", .obj (nameModel.encode "bob"), none⟩] rfl (by decide) rfl⟩

/-- Claim C9: `invalidate_by_user` does not delete the keys matching
`*:user:<user_id>:*` — the cache key built for user 7 matches that pattern,
yet the operation's own scan pattern (`*:user:7::*`, with a doubled colon)
finds nothing in a store holding exactly that key, and the store is left
unchanged. -/
theorem claim9_user_invalidation_noop :
    globMatch "*:user:7:*"
      (generateHandlerKey "api" "stats" (some "recent") (some (.i 7))) = true
    ∧ scanKeys ("*:" ++ createUserPattern (.i 7) ++ ":*")
        [⟨generateHandlerKey "api" "stats" (some "recent") (some (.i 7)),
          .obj [("events", "e")], some 60⟩] = []
    ∧ invalidateByUser (.i 7)
        [⟨generateHandlerKey "api" "stats" (some "recent") (some (.i 7)),
          .obj [("events", "e")], some 60⟩]
      = [⟨generateHandlerKey "api" "stats" (some "recent") (some (.i 7)),
          .obj [("events", "e")], some 60⟩] := by
  refine ⟨?_, ?_, ?_⟩ <;> decide

/-- Claim C10: a cached value that deserializes to the empty JSON object is
treated as a miss — the wrapped operation is re-invoked and its result
returned — and for the no-field result type even a call right after a
successful population invokes the operation again. -/
theorem claim10_empty_object_is_miss :
    (∀ (M : DtoModel) (gf sf isS : Bool) (p f : String) (q : Option String)
        (u : Option UserId) (exp : Option Int) (fresh : M.Val) (st : Store),
      storeGet st (generateHandlerKey p f q u) = some (.obj []) →
      (cacheHandler M gf sf isS p f q u exp fresh st).1 = ⟨.ok fresh, true⟩)
    ∧ (∀ (p f : String) (q : Option String) (u : Option UserId)
        (exp exp2 : Option Int) (st : Store),
      storeGet st (generateHandlerKey p f q u) = none →
      (cacheHandler emptyModel false false true p f q u exp2 ()
          ((cacheHandler emptyModel false false true p f q u exp () st).2)).1.invoked
        = true) := by
  constructor
  · intro M gf sf isS p f q u exp fresh st h
    cases gf
    · unfold cacheHandler
      simp [getCacheM, h]
    · rfl
  · intro p f q u exp exp2 st h
    unfold cacheHandler
    simp [getCacheM, h, setCacheM, storeGet_storeSet_self, emptyModel]

/-- Claim C10 witness: an empty cached object at the built key is a miss, and
the no-field model is re-invoked right after population. -/
theorem claim10_empty_object_is_miss_witness :
    (cacheHandler nameModel false false true "api" "f" none none none "x"
        [⟨":api://f:", .obj [], none⟩]).1 = ⟨.ok "x", true⟩
    ∧ (cacheHandler emptyModel false false true "api" "g" none none none ()
        ((cacheHandler emptyModel false false true "api" "g" none none none () []).2)).1.invoked
      = true :=
  ⟨claim10_empty_object_is_miss.1 nameModel false false true "api" "f" none none none "x"
      [⟨":api://f:", .obj [], none⟩] rfl,
    claim10_empty_object_is_miss.2 "api" "g" none none none none [] rfl⟩
